import Mathlib

/-!
Verification development for the ProjectTeal training core
(`src/ProjectTeal/training/`): a shallow embedding of the quad-Bayer
forward operator, CFA channel maps, losses, evaluation metrics, baselines
and risk guards, over exact rational arithmetic (`ℚ` in place of float
tensors, `ℝ` where the source takes square roots or logarithms).

Tensors are embedded as total functions from natural-number indices to
`ℚ`, with the shape carried separately as explicit arguments; all
reductions (means, maxima) range over `Finset.range`/`List.range` of the
shape, exactly mirroring the element ranges the PyTorch code reduces
over.  Shape-validation `raise` branches of the Python are modelled as
`Except` where a claim is about the error behaviour (`psnr`/`ssim` input
rank handling); elsewhere the shapes are preconditions carried by the
theorem statements, as noted next to each definition.
-/

namespace ProjectTeal

open Finset

/-- The closed CFA pattern enum (`CFAPattern = Literal["rggb", "bggr", "grbg", "gbrg"]`
in `losses.py` / `evaluation.py`). -/
inductive CFAPattern where
  | rggb
  | bggr
  | grbg
  | gbrg
deriving DecidableEq, Repr

/-- Block-granularity channel map from `losses.py::_channel_index_map`.
`block_y = (y // 2) & 1`, `block_x = (x // 2) & 1`; the chain of
`torch.where` calls is encoded with the *last* `where` as the outermost
`if` (a later `torch.where` overwrites earlier assignments where its
condition holds), and the second argument of the first `where` as the
final default. Values: 0 = R, 1 = G, 2 = B. -/
def channelIndexMap (p : CFAPattern) (y x : ℕ) : ℕ :=
  let blockY := (y / 2) % 2
  let blockX := (x / 2) % 2
  match p with
  | .rggb =>
      if blockX = 0 ∧ blockY = 1 then 1
      else if blockX = 1 ∧ blockY = 0 then 1
      else if blockX = 0 ∧ blockY = 0 then 0
      else 2
  | .bggr =>
      if blockX = 0 ∧ blockY = 1 then 1
      else if blockX = 1 ∧ blockY = 0 then 1
      else if blockX = 0 ∧ blockY = 0 then 2
      else 1
  | .grbg =>
      if blockX = 0 ∧ blockY = 1 then 2
      else if blockX = 1 ∧ blockY = 0 then 0
      else if blockX = 0 ∧ blockY = 0 then 1
      else 1
  | .gbrg =>
      if blockX = 0 ∧ blockY = 1 then 0
      else if blockX = 1 ∧ blockY = 0 then 2
      else if blockX = 0 ∧ blockY = 0 then 1
      else 1

/-- Pixel-parity channel map from `evaluation.py::_bayer_channel_map`
(duplicated verbatim in `risk.py::_bayer_channel_map`).
`yy = y & 1`, `xx = x & 1`; same `torch.where`-chain encoding as
`channelIndexMap`. Values: 0 = R, 1 = G, 2 = B. -/
def bayerChannelMap (p : CFAPattern) (y x : ℕ) : ℕ :=
  let yy := y % 2
  let xx := x % 2
  match p with
  | .rggb =>
      if yy = 1 ∧ xx = 1 then 2
      else if yy = 0 ∧ xx = 0 then 0
      else 1
  | .bggr =>
      if yy = 1 ∧ xx = 1 then 0
      else if yy = 0 ∧ xx = 0 then 2
      else 1
  | .grbg =>
      if yy = 1 ∧ xx = 0 then 2
      else if yy = 0 ∧ xx = 1 then 0
      else 1
  | .gbrg =>
      if yy = 1 ∧ xx = 0 then 0
      else if yy = 0 ∧ xx = 1 then 2
      else 1

/-- Modelled from the spec: the canonical layout spelled by a CFA
pattern name — "the four positions (0,0),(0,1),(1,0),(1,1) are assigned,
in row-major order, the colors spelled by the pattern's four letters",
with block (0,0) top-left and letters r ↦ 0, g ↦ 1, b ↦ 2.  This is the
reference layout both channel maps are claimed to encode. -/
def canonicalChannelAt (p : CFAPattern) (y x : ℕ) : ℕ :=
  let yy := y % 2
  let xx := x % 2
  match p with
  | .rggb => if yy = 0 then (if xx = 0 then 0 else 1) else (if xx = 0 then 1 else 2)
  | .bggr => if yy = 0 then (if xx = 0 then 2 else 1) else (if xx = 0 then 1 else 0)
  | .grbg => if yy = 0 then (if xx = 0 then 1 else 0) else (if xx = 0 then 2 else 1)
  | .gbrg => if yy = 0 then (if xx = 0 then 1 else 2) else (if xx = 0 then 0 else 1)

/-- The quad-Bayer forward operator from `losses.py::quad_bayer_forward`.
Input: an RGB48 tensor of shape `(B, 3, 2*h, 2*w)` (even spatial dims
are a checked precondition in the source — `ValueError` otherwise — and
here are enforced by writing the height/width as `2*i+a`); `scale` is
the per-channel scale (the source's `channel_scale`, defaulting to ones).
Output pixel `(b, i, j)` of the `(B, 1, h, w)` mosaic: the source
multiplies by `channel_scale`, gathers channel `channel_map[y, x]` at
every pixel, and means each non-overlapping 2×2 block
(`view(B,1,h,2,w,2).mean(dim=(3,5))`), i.e. the sum below divided by 4. -/
def quadBayerForward (p : CFAPattern) (scale : ℕ → ℚ) (rgb : ℕ → ℕ → ℕ → ℕ → ℚ)
    (b i j : ℕ) : ℚ :=
  (∑ a ∈ range 2, ∑ c ∈ range 2,
      scale (channelIndexMap p (2 * i + a) (2 * j + c)) *
        rgb b (channelIndexMap p (2 * i + a) (2 * j + c)) (2 * i + a) (2 * j + c)) / 4

/-- The identity channel scale (`channel_scale = None` in the source). -/
def onesScale : ℕ → ℚ := fun _ => 1

/-- The manual binning reference from `risk.py::quad_binner_residual`
(lines 79–84): after applying `channel_scale`, slice
`r = scaled[:, 0, 0::2, 0::2]`, `g1 = scaled[:, 1, 0::2, 1::2]`,
`g2 = scaled[:, 1, 1::2, 0::2]`, `b = scaled[:, 2, 1::2, 1::2]` and
average the four stacked slices (`stack(...).mean(dim=0)`).  Note the
slicing is pixel-parity RGGB regardless of the `cfa_pattern` argument. -/
def manualBinning (scale : ℕ → ℚ) (rgb : ℕ → ℕ → ℕ → ℕ → ℚ) (b i j : ℕ) : ℚ :=
  (scale 0 * rgb b 0 (2 * i) (2 * j) +
   scale 1 * rgb b 1 (2 * i) (2 * j + 1) +
   scale 1 * rgb b 1 (2 * i + 1) (2 * j) +
   scale 2 * rgb b 2 (2 * i + 1) (2 * j + 1)) / 4

/-- The reduction `(m1 - m2).abs().max()` over a `(B, h, w)` mosaic pair (the mosaics'
unit channel axis is elided throughout this file).  The fold base 0 is
never the answer on nonempty shapes since every element is `|·| ≥ 0`. -/
def maxAbsResidual (B h w : ℕ) (m1 m2 : ℕ → ℕ → ℕ → ℚ) : ℚ :=
  (((List.range B).map fun b => (List.range h).map fun i => (List.range w).map fun j =>
      |m1 b i j - m2 b i j|).map List.flatten).flatten.foldl max 0

/-- From `risk.py::quad_binner_residual`: max absolute difference between the
vectorized forward operator and the manual strided-slicing binning, on a
`(B, 3, 2*h, 2*w)` input. -/
def quadBinnerResidual (B h w : ℕ) (p : CFAPattern) (scale : ℕ → ℚ)
    (rgb : ℕ → ℕ → ℕ → ℕ → ℚ) : ℚ :=
  maxAbsResidual B h w (quadBayerForward p scale rgb) (manualBinning scale rgb)

/-- Embeds `torch.clamp(x, min=lo, max=hi)`: `min (max x lo) hi`. -/
def clampQ (lo hi x : ℚ) : ℚ := min (max x lo) hi

/-- Insert into a sorted list (helper for the sort underlying
`torch.quantile`). -/
def insertSorted (a : ℚ) : List ℚ → List ℚ
  | [] => [a]
  | b :: t => if a ≤ b then a :: b :: t else b :: insertSorted a t

/-- Insertion sort (ascending), the sorted order over which
`torch.quantile` interpolates. -/
def sortQ : List ℚ → List ℚ
  | [] => []
  | a :: t => insertSorted a (sortQ t)

/-- Embeds `torch.quantile(xs, q)` with the default linear interpolation: on the
ascending sort of `xs`, the value at fractional position `q * (n - 1)`. -/
def torchQuantile (xs : List ℚ) (q : ℚ) : ℚ :=
  let s := sortQ xs
  let n := s.length
  let pos := q * ((n : ℚ) - 1)
  let i := (⌊pos⌋).toNat
  let f := pos - (⌊pos⌋ : ℚ)
  let v0 := s.getD i 0
  let v1 := s.getD (min (i + 1) (n - 1)) 0
  v0 + f * (v1 - v0)

/-- Row-major flattening of one batch element of a `(h, w)` map
(`ratios.view(B, -1)` in the source, per batch element). -/
def flattenMap (h w : ℕ) (m : ℕ → ℕ → ℚ) : List ℚ :=
  ((List.range h).map fun i => (List.range w).map fun j => m i j).flatten

/-- Output record of both baselines (`baselines.py::BaselineOutput`);
Baseline A's scalar per-batch gain is the `(B,)`-shaped `gain`. -/
structure BaselineOutputQ where
  rgb48 : ℕ → ℕ → ℕ → ℕ → ℚ
  mosaic : ℕ → ℕ → ℕ → ℚ
  gain : ℕ → ℚ

/-- Baseline A from `baselines.py::global_del_tm_baseline` on a
`(B, 3, 2*h, 2*w)` input and `(B, 1, h, w)` anchor (the source's
`_validate_shapes`/forward-shape checks are preconditions here):
optionally invert the tone curve, forward-project, take the per-batch
`gain_percentile` quantile of `anchor / (simulated + eps)`, clamp it to
`[min_gain, max_gain]`, apply it and clamp the corrected RGB at zero,
and re-project. -/
def globalDelTmBaseline (h w : ℕ) (proraw : ℕ → ℕ → ℕ → ℕ → ℚ)
    (anchor : ℕ → ℕ → ℕ → ℚ) (p : CFAPattern)
    (invToneCurve : Option (ℚ → ℚ)) (scale : ℕ → ℚ)
    (gainPercentile minGain maxGain eps : ℚ) : BaselineOutputQ :=
  let linear : ℕ → ℕ → ℕ → ℕ → ℚ :=
    match invToneCurve with
    | none => proraw
    | some f => fun b c y x => f (proraw b c y x)
  let simulated := quadBayerForward p scale linear
  let ratios : ℕ → ℕ → ℕ → ℚ := fun b i j => anchor b i j / (simulated b i j + eps)
  let gain : ℕ → ℚ := fun b =>
    clampQ minGain maxGain (torchQuantile (flattenMap h w (ratios b)) gainPercentile)
  let corrected : ℕ → ℕ → ℕ → ℕ → ℚ := fun b c y x => max 0 (linear b c y x * gain b)
  { rgb48 := corrected
    mosaic := quadBayerForward p scale corrected
    gain := gain }

/-- The gain-field construction step of `baselines.py::gain_field_baseline`
(lines 118–125): forward-project, form the epsilon-stabilized pointwise
ratio `anchor / (simulated + eps)`, and clamp it elementwise to
`[min_gain, max_gain]`.  (The remainder of that baseline bilinearly
upsamples, box-smooths, broadcasts and applies this already-clamped
field.) -/
def gainFieldBaselineGainAnchor (proraw : ℕ → ℕ → ℕ → ℕ → ℚ)
    (anchor : ℕ → ℕ → ℕ → ℚ) (p : CFAPattern) (scale : ℕ → ℚ)
    (minGain maxGain eps : ℚ) : ℕ → ℕ → ℕ → ℚ :=
  fun b i j =>
    clampQ minGain maxGain (anchor b i j / (quadBayerForward p scale proraw b i j + eps))

/-- Source coordinate of `F.interpolate(..., mode="bilinear",
align_corners=False)`: `(dst + 0.5) * in/out - 0.5`, clamped below at 0
(PyTorch's `area_pixel_compute_source_index`). -/
def bilinearSrc (inSize outSize o : ℕ) : ℚ :=
  max (((o : ℚ) + 1 / 2) * inSize / outSize - 1 / 2) 0

/-- One channel of `F.interpolate(gain, size=(outH, outW), mode="bilinear",
align_corners=False)`: floor the source coordinate, step the high index
only while it stays inside the input, and blend with the fractional
weights, exactly as PyTorch's bilinear kernel does. -/
def upsampleBilinear (inH inW outH outW : ℕ) (g : ℕ → ℕ → ℚ) (y x : ℕ) : ℚ :=
  let sy := bilinearSrc inH outH y
  let sx := bilinearSrc inW outW x
  let y0 := (⌊sy⌋).toNat
  let x0 := (⌊sx⌋).toNat
  let y1 := if y0 + 1 < inH then y0 + 1 else y0
  let x1 := if x0 + 1 < inW then x0 + 1 else x0
  let ly := sy - (y0 : ℚ)
  let lx := sx - (x0 : ℚ)
  (1 - ly) * ((1 - lx) * g y0 x0 + lx * g y0 x1) +
    ly * ((1 - lx) * g y1 x0 + lx * g y1 x1)

/-- From `gain_field_io.py::compose_linear_prediction`, on a `(B, 3, H, W)`
input with a `(B, 3, h, w)` gain field (the 4D/3-channel/matching-shape
`ValueError` guards are preconditions here): upsample the gain
bilinearly to `(H, W)` and form `clamp_min(pro_raw48 * gain_up + detail, 0)`.
No `[min_gain, max_gain]` clamp appears anywhere in this function. -/
def composeLinearPrediction (h w H W : ℕ)
    (proRaw48 gain detail : ℕ → ℕ → ℕ → ℕ → ℚ) : ℕ → ℕ → ℕ → ℕ → ℚ :=
  fun b c y x =>
    max 0 (proRaw48 b c y x * upsampleBilinear h w H W (gain b c) y x + detail b c y x)

/-- Mean squared error over a `(B, C, H, W)` tensor pair
(`F.mse_loss(pred, target)` in `evaluation.py::psnr`). -/
def mseT4 (B C H W : ℕ) (pred target : ℕ → ℕ → ℕ → ℕ → ℚ) : ℚ :=
  (∑ b ∈ range B, ∑ c ∈ range C, ∑ y ∈ range H, ∑ x ∈ range W,
      (pred b c y x - target b c y x) ^ 2) / ((B * C * H * W : ℕ) : ℚ)

/-- The PSNR value computed by `evaluation.py::psnr` once shapes are
validated: positive infinity (`EReal`'s `⊤`) when the MSE is exactly
zero, otherwise `10 * log10(max_val ** 2 / mse)`. -/
noncomputable def psnrOfMse (maxVal mse : ℚ) : EReal :=
  if mse = 0 then ⊤
  else ((10 * Real.logb 10 ((maxVal : ℝ) ^ 2 / (mse : ℝ)) : ℝ) : EReal)

/-- An input tensor to the public `psnr`/`ssim` interface, tagged by its
rank as `x.ndim` is in `evaluation.py::_ensure_image_4d`.  Ranks other
than 3 and 4 are rejected by that helper before the data is ever read,
so `rankOther` carries only the (≠ 3, ≠ 4) rank. -/
inductive TensorInput where
  | rank3 (C H W : ℕ) (data : ℕ → ℕ → ℕ → ℚ)
  | rank4 (B C H W : ℕ) (data : ℕ → ℕ → ℕ → ℕ → ℚ)
  | rankOther (n : ℕ) (h3 : n ≠ 3) (h4 : n ≠ 4)

/-- A validated `(B, C, H, W)` tensor. -/
structure T4 where
  B : ℕ
  C : ℕ
  H : ℕ
  W : ℕ
  data : ℕ → ℕ → ℕ → ℕ → ℚ

/-- From `evaluation.py::_ensure_image_4d`: a rank-3 `(C, H, W)` input gains
a leading batch axis (`unsqueeze(0)`), a rank-4 input passes through,
anything else raises the shape-validation `ValueError`. -/
def ensureImage4d : TensorInput → Except String T4
  | .rank3 C H W d => .ok ⟨1, C, H, W, fun _ => d⟩
  | .rank4 B C H W d => .ok ⟨B, C, H, W, d⟩
  | .rankOther _ _ _ => .error "expected input with shape (B, C, H, W) or (C, H, W)"

/-- From `evaluation.py::psnr`: ensure both inputs are 4D, assert matching
shapes (`_assert_matching_shapes`), then compute the PSNR value. -/
noncomputable def psnrE (pred target : TensorInput) (maxVal : ℚ) : Except String EReal :=
  match ensureImage4d pred with
  | .error e => .error e
  | .ok p =>
    match ensureImage4d target with
    | .error e => .error e
    | .ok t =>
      if (p.B, p.C, p.H, p.W) ≠ (t.B, t.C, t.H, t.W) then
        .error "pred and target must share shape"
      else
        .ok (psnrOfMse maxVal (mseT4 p.B p.C p.H p.W p.data t.data))

/-- Unnormalized 1D Gaussian of `evaluation.py::_gaussian_window`:
`exp(-(i - window_size // 2)^2 / (2 * sigma^2))`. -/
noncomputable def gaussRaw (n : ℕ) (sigma : ℚ) (i : ℕ) : ℝ :=
  Real.exp (-((i : ℝ) - ((n / 2 : ℕ) : ℝ)) ^ 2 / (2 * (sigma : ℝ) ^ 2))

/-- The normalized 2D window `outer(w1, w1)` with `w1 = gauss / gauss.sum()`. -/
noncomputable def gaussWindow2d (n : ℕ) (sigma : ℚ) (u v : ℕ) : ℝ :=
  (gaussRaw n sigma u / ∑ j ∈ range n, gaussRaw n sigma j) *
    (gaussRaw n sigma v / ∑ j ∈ range n, gaussRaw n sigma j)

/-- One (batch, channel) plane of the grouped `F.conv2d(x, window,
padding=window_size // 2, groups=C)` in `evaluation.py::ssim`: zero
padding outside the `(H, W)` extent; an odd `window_size = 2p + 1`
(the default 11) keeps the spatial size, which is the shape this
embedding represents. -/
noncomputable def convWindow (H W n : ℕ) (sigma : ℚ) (img : ℕ → ℕ → ℝ) (y x : ℕ) : ℝ :=
  ∑ u ∈ range n, ∑ v ∈ range n,
    gaussWindow2d n sigma u v *
      (let iy : ℤ := (y : ℤ) + u - (n / 2 : ℕ)
       let ix : ℤ := (x : ℤ) + v - (n / 2 : ℕ)
       if 0 ≤ iy ∧ iy < H ∧ 0 ≤ ix ∧ ix < W then img iy.toNat ix.toNat else 0)

/-- The SSIM value computed by `evaluation.py::ssim` once shapes are
validated: Gaussian-windowed means/variances/covariance per channel,
stabilizers `C1 = (0.01 max)^2`, `C2 = (0.03 max)^2`, and the mean of the
SSIM map over batch, channels and pixels. -/
noncomputable def ssimVal (B C H W : ℕ) (pred target : ℕ → ℕ → ℕ → ℕ → ℚ)
    (maxVal : ℚ) (n : ℕ) (sigma : ℚ) : ℝ :=
  let fp : ℕ → ℕ → ℕ → ℕ → ℝ := fun b c => convWindow H W n sigma (fun y x => (pred b c y x : ℝ))
  let ft : ℕ → ℕ → ℕ → ℕ → ℝ := fun b c => convWindow H W n sigma (fun y x => (target b c y x : ℝ))
  let fpp : ℕ → ℕ → ℕ → ℕ → ℝ := fun b c => convWindow H W n sigma (fun y x => ((pred b c y x : ℝ)) ^ 2)
  let ftt : ℕ → ℕ → ℕ → ℕ → ℝ := fun b c => convWindow H W n sigma (fun y x => ((target b c y x : ℝ)) ^ 2)
  let fpt : ℕ → ℕ → ℕ → ℕ → ℝ := fun b c => convWindow H W n sigma (fun y x => (pred b c y x : ℝ) * (target b c y x : ℝ))
  let c1 : ℝ := (1 / 100 * (maxVal : ℝ)) ^ 2
  let c2 : ℝ := (3 / 100 * (maxVal : ℝ)) ^ 2
  (∑ b ∈ range B, ∑ c ∈ range C, ∑ y ∈ range H, ∑ x ∈ range W,
      ((2 * fp b c y x * ft b c y x + c1) * (2 * (fpt b c y x - fp b c y x * ft b c y x) + c2)) /
        ((fp b c y x ^ 2 + ft b c y x ^ 2 + c1) *
          ((fpp b c y x - fp b c y x ^ 2) + (ftt b c y x - ft b c y x ^ 2) + c2))) /
    ((B * C * H * W : ℕ) : ℝ)

/-- From `evaluation.py::ssim`: ensure both inputs are 4D, assert matching
shapes, re-check the channel counts agree (the source's redundant
second guard), then compute the SSIM value. -/
noncomputable def ssimE (pred target : TensorInput) (maxVal : ℚ) (n : ℕ) (sigma : ℚ) :
    Except String ℝ :=
  match ensureImage4d pred with
  | .error e => .error e
  | .ok p =>
    match ensureImage4d target with
    | .error e => .error e
    | .ok t =>
      if (p.B, p.C, p.H, p.W) ≠ (t.B, t.C, t.H, t.W) then
        .error "pred and target must share shape"
      else if p.C ≠ t.C then
        .error "pred and target must have the same number of channels"
      else
        .ok (ssimVal p.B p.C p.H p.W p.data t.data maxVal n sigma)

/-- From `losses.py::charbonnier_loss`, over a `(B, C, H, W)` pair:
`sqrt((pred - target)^2 + eps^2).mean()`. -/
noncomputable def charbonnierLoss (B C H W : ℕ) (pred target : ℕ → ℕ → ℕ → ℕ → ℚ)
    (eps : ℚ) : ℝ :=
  (∑ b ∈ range B, ∑ c ∈ range C, ∑ y ∈ range H, ∑ x ∈ range W,
      Real.sqrt (((pred b c y x - target b c y x : ℚ) : ℝ) ^ 2 + (eps : ℝ) ^ 2)) /
    ((B * C * H * W : ℕ) : ℝ)

/-- From `losses.py::anchor_charbonnier_loss`, on a `(B, 3, 2*h, 2*w)`
prediction and `(B, 1, h, w)` target mosaic: forward-project the
prediction and take the Charbonnier loss against the target (the
target-shape `ValueError` is a precondition made true by construction
here; the mosaics' unit channel axis is threaded as `C = 1`). -/
noncomputable def anchorCharbonnierLoss (B h w : ℕ) (predRgb : ℕ → ℕ → ℕ → ℕ → ℚ)
    (targetMosaic : ℕ → ℕ → ℕ → ℚ) (p : CFAPattern) (scale : ℕ → ℚ) (eps : ℚ) : ℝ :=
  charbonnierLoss B 1 h w
    (fun b _ y x => quadBayerForward p scale predRgb b y x)
    (fun b _ y x => targetMosaic b y x) eps

/-- Embeds `torch.roll(m, shifts=(dy, dx), dims=(-2, -1))` on a `(B, 1, H, W)`
mosaic (unit channel elided): `out[b, y, x] = m[b, (y - dy) mod H,
(x - dx) mod W]`. -/
def rollM (H W : ℕ) (m : ℕ → ℕ → ℕ → ℚ) (dy dx : ℤ) : ℕ → ℕ → ℕ → ℚ :=
  fun b y x => m b ((((y : ℤ) - dy) % (H : ℤ)).toNat) ((((x : ℤ) - dx) % (W : ℤ)).toNat)

/-- Equality of two `(B, 1, H, W)` mosaics on their valid index range. -/
def mosaicEqOn (B H W : ℕ) (m1 m2 : ℕ → ℕ → ℕ → ℚ) : Prop :=
  ∀ b < B, ∀ y < H, ∀ x < W, m1 b y x = m2 b y x

instance mosaicEqOnDecidable (B H W : ℕ) (m1 m2 : ℕ → ℕ → ℕ → ℚ) :
    Decidable (mosaicEqOn B H W m1 m2) :=
  inferInstanceAs (Decidable (∀ b < B, ∀ y < H, ∀ x < W, m1 b y x = m2 b y x))

/-- The shift offsets `range(-max_shift, max_shift + 1)` as integers. -/
def shiftOffsets (m : ℕ) : List ℤ :=
  (List.range (2 * m + 1)).map fun (i : ℕ) => (i : ℤ) - (m : ℤ)

/-- The `(dy, dx)` search grid of `detect_misalignment`, in the nested
loop order of the source (`dy` outer, `dx` inner). -/
def shiftGrid (m : ℕ) : List (ℤ × ℤ) :=
  ((shiftOffsets m).map fun dy => (shiftOffsets m).map fun dx => (dy, dx)).flatten

/-- One step of the best-shift scan: keep the incumbent unless the new
shift scores a strictly smaller MSE (the source keeps the incumbent
unless the new PSNR is strictly larger; PSNR `10·log10(max²/mse)`,
with `+∞` at `mse = 0`, is strictly decreasing in MSE, so the two scans
select the same shift; the source's `best_psnr = -inf` seed is the
`none` accumulator here). -/
def misalignStep (score : ℤ × ℤ → ℚ) (acc : Option ((ℤ × ℤ) × ℚ)) (s : ℤ × ℤ) :
    Option ((ℤ × ℤ) × ℚ) :=
  match acc with
  | none => some (s, score s)
  | some (bs, bv) => if score s < bv then some (s, score s) else some (bs, bv)

/-- Diagnostic record of `risk.py::detect_misalignment`, with scores
carried as MSEs (see `misalignStep`): `bestMse`/`referenceMse` are the
MSEs whose PSNRs the source reports as `best_psnr`/`reference_psnr`. -/
structure MisalignmentReport where
  bestShift : ℤ × ℤ
  bestMse : ℚ
  referenceMse : ℚ
  isAligned : Bool

/-- MSE over a `(B, 1, H, W)` mosaic pair (unit channel elided), the
quantity PSNR is computed from inside `detect_misalignment`. -/
def mseM (B H W : ℕ) (pred target : ℕ → ℕ → ℕ → ℚ) : ℚ :=
  (∑ b ∈ range B, ∑ y ∈ range H, ∑ x ∈ range W, (pred b y x - target b y x) ^ 2) /
    ((B * H * W : ℕ) : ℚ)

/-- From `risk.py::detect_misalignment`, on equal-shape `(B, 1, H, W)` mosaics
(the shape mismatch `ValueError` is a precondition): scan all shifts in
`[-max_shift, max_shift]²`, keep the first strictly best score, and flag
`is_aligned` iff the best shift is `(0, 0)` and the unshifted score
meets the threshold.  The source's `reference_psnr >= psnr_threshold`
is `referenceMse ≤ mseThreshold` here (`mseThreshold` is the MSE
corresponding to the configured dB threshold, `max² · 10^(-t/10)`). -/
def detectMisalignment (B H W : ℕ) (anchor simulated : ℕ → ℕ → ℕ → ℚ)
    (maxShift : ℕ) (mseThreshold : ℚ) : MisalignmentReport :=
  let score : ℤ × ℤ → ℚ := fun s => mseM B H W (rollM H W simulated s.1 s.2) anchor
  let best := (shiftGrid maxShift).foldl (misalignStep score) none
  let bestPair := best.getD ((0, 0), score (0, 0))
  let refMse := mseM B H W simulated anchor
  { bestShift := bestPair.1
    bestMse := bestPair.2
    referenceMse := refMse
    isAligned := decide (bestPair.1 = ((0 : ℤ), (0 : ℤ))) && decide (refMse ≤ mseThreshold) }

/-- Per-role channel mean of `risk.py::estimate_white_balance_neutral`:
sum of the mosaic values whose pixel-parity CFA role is `i`, divided by
the role's pixel count clamped below at 1 (`counts.clamp(min=1)`). -/
def wbChannelMean (H W : ℕ) (mosaic : ℕ → ℕ → ℕ → ℚ) (p : CFAPattern) (b i : ℕ) : ℚ :=
  (∑ y ∈ range H, ∑ x ∈ range W, if bayerChannelMap p y x = i then mosaic b y x else 0) /
    max ((∑ y ∈ range H, ∑ x ∈ range W, if bayerChannelMap p y x = i then (1 : ℚ) else 0)) 1

/-- From `risk.py::estimate_white_balance_neutral`, on a `(B, 1, H, W)` mosaic
(unit channel elided; the shape/evenness `ValueError`s are
preconditions): reciprocal of the epsilon-stabilized per-role means,
normalized so the green (index 1) component is 1. -/
def estimateWhiteBalanceNeutral (H W : ℕ) (mosaic : ℕ → ℕ → ℕ → ℚ) (p : CFAPattern)
    (eps : ℚ) : ℕ → ℕ → ℚ :=
  fun b i => (1 / (wbChannelMean H W mosaic p b i + eps)) /
    (1 / (wbChannelMean H W mosaic p b 1 + eps))

/-- The per-channel deviation returned by
`risk.py::white_balance_consistency`: `|estimated - target / target[1]|`,
with the estimate taken at the estimator's default `eps = 1e-6`. -/
def whiteBalanceDeviation (H W : ℕ) (mosaic : ℕ → ℕ → ℕ → ℚ) (target : ℕ → ℚ)
    (p : CFAPattern) : ℕ → ℕ → ℚ :=
  fun b i =>
    |estimateWhiteBalanceNeutral H W mosaic p (1 / 1000000) b i - target i / target 1|

/-- The boolean returned by `risk.py::white_balance_consistency`:
all per-channel deviations within `tolerance`
(`torch.all(deviation <= tolerance)` over the `(B, 3)` deviation). -/
def whiteBalanceWithin (B H W : ℕ) (mosaic : ℕ → ℕ → ℕ → ℚ) (target : ℕ → ℚ)
    (p : CFAPattern) (tolerance : ℚ) : Prop :=
  ∀ b < B, ∀ i < 3, whiteBalanceDeviation H W mosaic target p b i ≤ tolerance

/-- A constant `(B, C, H, W)` tensor. -/
def constT4 (v : ℚ) : ℕ → ℕ → ℕ → ℕ → ℚ := fun _ _ _ _ => v

/-- A constant `(B, 1, h, w)` mosaic. -/
def constM (v : ℚ) : ℕ → ℕ → ℕ → ℚ := fun _ _ _ => v

/-- The `(1, 3, 4, 4)` input of the repository's own binner test
(`test_risk.py::test_quad_binner_residual_matches_manual_rggb`):
channel 0 holds `1 + 4y + x`, channel 1 holds `2 + 4y + x`, channel 2
holds `3 + 4y + x` at pixel `(y, x)`. -/
def c2TestRgb : ℕ → ℕ → ℕ → ℕ → ℚ := fun _ c y x =>
  if c = 0 then (1 + 4 * y + x : ℚ)
  else if c = 1 then (2 + 4 * y + x)
  else (3 + 4 * y + x)

/-- The channel scale `(1.0, 2.0, 0.5)` of that same test. -/
def c2TestScale : ℕ → ℚ := fun c => if c = 0 then 1 else if c = 1 then 2 else 1 / 2

/-- The spatially constant RGB48 input of claim C7: `R = 1`, `G = 2`,
`B = 4` everywhere. -/
def c7Rgb : ℕ → ℕ → ℕ → ℕ → ℚ := fun _ c _ _ =>
  if c = 0 then 1 else if c = 1 then 2 else 4

/-- The channel scale `(2, 1, 0.5)` of claim C7. -/
def c7Scale : ℕ → ℚ := fun c => if c = 0 then 2 else if c = 1 then 1 else 1 / 2

/-- Baseline A evaluated at the constant input pair of claim C4:
`proraw ≡ 0.5` on `(1, 3, 4, 4)`, `anchor ≡ 1.0` on `(1, 1, 2, 2)` (the
shape used by `test_baselines.py::test_global_del_tm_aligns_anchor_with_scalar_gain`),
with all defaults: RGGB, no inverse tone curve, identity scale,
`gain_percentile = 0.5`, `[min_gain, max_gain] = [0.25, 4.0]`,
`eps = 1e-6`. -/
def c4Output : BaselineOutputQ :=
  globalDelTmBaseline 2 2 (constT4 (1 / 2)) (constM 1) CFAPattern.rggb none onesScale
    (1 / 2) (1 / 4) 4 (1 / 1000000)

/-- The `(1, 1, 4, 4)` anchor mosaic used to witness C5: values
`4*y + x`, distinct at every pixel, so no nonzero in-range shift fixes
it. -/
def c5Anchor : ℕ → ℕ → ℕ → ℚ := fun _ y x => mkRat (Int.ofNat (4 * y + x)) 1

end ProjectTeal

namespace ProjectTeal

/-- Every value of the block-granularity channel map is a channel index
in `{0, 1, 2}`. -/
theorem channelIndexMap_lt_three (p : CFAPattern) (y x : ℕ) :
    channelIndexMap p y x < 3 := by
  cases p <;> simp only [channelIndexMap] <;> split_ifs <;> norm_num

/-- C1: the pixel-parity map `_bayer_channel_map` encodes the canonical
layout spelled by every pattern name, and the block map
`_channel_index_map` agrees with it for rggb, grbg and gbrg; but for
bggr the block map assigns green (1) at block position (1,1) — e.g. at
full-resolution pixel (2,2) — where the canonical bggr layout and the
pixel-parity map (at mosaic pixel (1,1)) assign red (0).  The two maps
therefore do not agree on the bggr pattern, and the forward operator
never samples the red channel under bggr. -/
theorem channel_maps_disagree_on_bggr :
    channelIndexMap CFAPattern.bggr 2 2 = 1 ∧
    bayerChannelMap CFAPattern.bggr 1 1 = 0 ∧
    canonicalChannelAt CFAPattern.bggr 1 1 = 0 ∧
    (∀ p y x, bayerChannelMap p y x = canonicalChannelAt p y x) ∧
    (∀ y x, channelIndexMap CFAPattern.rggb y x =
      canonicalChannelAt CFAPattern.rggb (y / 2) (x / 2)) ∧
    (∀ y x, channelIndexMap CFAPattern.grbg y x =
      canonicalChannelAt CFAPattern.grbg (y / 2) (x / 2)) ∧
    (∀ y x, channelIndexMap CFAPattern.gbrg y x =
      canonicalChannelAt CFAPattern.gbrg (y / 2) (x / 2)) := by
  refine ⟨by decide, by decide, by decide, ?_, ?_, ?_, ?_⟩
  · intro p y x
    rcases Nat.mod_two_eq_zero_or_one y with hy | hy <;>
      rcases Nat.mod_two_eq_zero_or_one x with hx | hx <;>
        cases p <;> simp [bayerChannelMap, canonicalChannelAt, hy, hx]
  all_goals
    intro y x
    rcases Nat.mod_two_eq_zero_or_one (y / 2) with hy | hy <;>
      rcases Nat.mod_two_eq_zero_or_one (x / 2) with hx | hx <;>
        simp [channelIndexMap, canonicalChannelAt, hy, hx]

/-- C2: on the exact input of the repository's own regression test
(`test_quad_binner_residual_matches_manual_rggb`, which asserts the
residual is close to zero), `quad_binner_residual` evaluates to
47/4 = 11.75: the forward operator bins 2×2 same-colour quad blocks
while the manual reference samples one pixel of each of R, G1, G2, B
per 2×2 cell and averages across colours, so the two disagree. -/
theorem quad_binner_residual_nonzero_on_test_input :
    quadBinnerResidual 1 2 2 CFAPattern.rggb c2TestScale c2TestRgb = 47 / 4 ∧
    (47 / 4 : ℚ) ≠ 0 := by
  constructor
  · simp only [quadBinnerResidual, maxAbsResidual, List.range_succ, List.range_zero,
      List.map_append, List.map_cons, List.map_nil, List.append_nil,
      List.nil_append, List.foldl, List.flatten_cons, List.flatten_nil]
    norm_num [quadBayerForward, manualBinning, channelIndexMap, c2TestScale, c2TestRgb,
      Finset.sum_range_succ, max_def, abs_of_nonneg]
  · norm_num

/-- C7: with spatially constant channels `R = 1`, `G = 2`, `B = 4` and
channel scale `(2, 1, 0.5)`, every scaled channel equals 2, so the
forward operator produces the mosaic constantly equal to 2 at every
output pixel, for every CFA pattern. -/
theorem quad_bayer_forward_constant_channels :
    ∀ (p : CFAPattern) (b i j : ℕ), quadBayerForward p c7Scale c7Rgb b i j = 2 := by
  intro p b i j
  have key : ∀ y x : ℕ,
      c7Scale (channelIndexMap p y x) * c7Rgb b (channelIndexMap p y x) y x = 2 := by
    intro y x
    have h3 := channelIndexMap_lt_three p y x
    rcases (by omega :
        channelIndexMap p y x = 0 ∨ channelIndexMap p y x = 1 ∨ channelIndexMap p y x = 2)
      with h | h | h <;> rw [h] <;> norm_num [c7Scale, c7Rgb]
  unfold quadBayerForward
  simp only [Finset.sum_range_succ, Finset.sum_range_zero, key]
  norm_num

/-- C4 counterexample: at the constant input pair `proraw ≡ 0.5`,
`anchor ≡ 1.0` with all defaults, Baseline A's gain is
`1 / (0.5 + 1e-6) = 1000000/500001`, not exactly 2.0, and the corrected
mosaic is `500000/500001`, not exactly the anchor value 1.0 — the
`eps = 1e-6` ratio stabilizer makes both only approximate. -/
theorem baseline_a_not_exact_counterexample :
    c4Output.gain 0 ≠ 2 ∧ c4Output.mosaic 0 0 0 ≠ constM 1 0 0 0 := by
  constructor <;>
    norm_num [c4Output, globalDelTmBaseline, clampQ, torchQuantile, sortQ, insertSorted,
      flattenMap, quadBayerForward, channelIndexMap, constT4, constM, onesScale,
      Finset.sum_range_succ, List.range_succ, max_def, min_def]

/-- C4 amended: at that same constant input pair, Baseline A's gain is
exactly `1000000/500001` (within `4e-6` of 2.0), the corrected mosaic is
constantly `500000/500001` (within `2e-6` of the anchor), and the
corrected RGB output is everywhere non-negative. -/
theorem baseline_a_constant_input_amended :
    c4Output.gain 0 = 1000000 / 500001 ∧
    (∀ b i j, c4Output.mosaic b i j = 500000 / 500001) ∧
    (∀ b c y x, 0 ≤ c4Output.rgb48 b c y x) ∧
    |(2 : ℚ) - 1000000 / 500001| < 4 / 1000000 ∧
    |(1 : ℚ) - 500000 / 500001| < 2 / 1000000 := by
  refine ⟨?_, fun b i j => ?_, fun b c y x => ?_,
    by norm_num [abs_of_nonneg], by norm_num [abs_of_nonneg]⟩ <;>
    norm_num [c4Output, globalDelTmBaseline, clampQ, torchQuantile, sortQ, insertSorted,
      flattenMap, quadBayerForward, channelIndexMap, constT4, constM, onesScale,
      Finset.sum_range_succ, List.range_succ, max_def, min_def]

/-- C3 counterexample: `compose_linear_prediction` applies the gain with
no `[min_gain, max_gain]` clamp.  With input ≡ 1, a gain field ≡ 10 and
detail ≡ 0, the composed output is 10; had the gain been clamped to the
codebase's configured default range `[0.25, 4.0]` before application
(as the claim requires of every consumption site), the output would
have been 4. -/
theorem compose_gain_unclamped_counterexample :
    composeLinearPrediction 2 2 4 4 (constT4 1) (constT4 10) (constT4 0) 0 0 0 0 = 10 ∧
    max 0 (constT4 1 0 0 0 0 * clampQ (1 / 4) 4 10 + constT4 0 0 0 0 0) = 4 ∧
    ((10 : ℚ) ≠ 4) := by
  refine ⟨?_, ?_, by norm_num⟩ <;>
    norm_num [composeLinearPrediction, upsampleBilinear, bilinearSrc, constT4, clampQ,
      max_def, min_def, Int.floor_zero]

/-- C3 amended: in the two baselines the gain is clamped to
`[min_gain, max_gain]` before being applied (Baseline A's scalar gain
always lies in the configured band, and Baseline B's gain field is
clamped elementwise before it is upsampled, smoothed and applied), but
`compose_linear_prediction` applies the upsampled gain without any
range clamp — any non-negative constant gain value, however large,
passes straight through to the output; only the final composition is
clamped below at zero. -/
theorem gain_clamp_in_baselines_not_in_compose :
    (∀ h w proraw anchor p itc scale q lo hi eps b, lo ≤ hi →
      lo ≤ (globalDelTmBaseline h w proraw anchor p itc scale q lo hi eps).gain b ∧
      (globalDelTmBaseline h w proraw anchor p itc scale q lo hi eps).gain b ≤ hi) ∧
    (∀ proraw anchor p scale lo hi eps b i j, lo ≤ hi →
      lo ≤ gainFieldBaselineGainAnchor proraw anchor p scale lo hi eps b i j ∧
      gainFieldBaselineGainAnchor proraw anchor p scale lo hi eps b i j ≤ hi) ∧
    (∀ g : ℚ, 0 ≤ g →
      composeLinearPrediction 2 2 4 4 (constT4 1) (constT4 g) (constT4 0) 0 0 0 0 = g) := by
  refine ⟨?_, ?_, ?_⟩
  · intro h w proraw anchor p itc scale q lo hi eps b hlohi
    exact ⟨le_min (le_max_right _ _) hlohi, min_le_right _ _⟩
  · intro proraw anchor p scale lo hi eps b i j hlohi
    exact ⟨le_min (le_max_right _ _) hlohi, min_le_right _ _⟩
  · intro g hg
    have hsrc : bilinearSrc 2 4 0 = 0 := by norm_num [bilinearSrc, max_def]
    simp only [composeLinearPrediction, upsampleBilinear, constT4, hsrc]
    norm_num [max_def, hg]

/-- Witness for C3's amended theorem at concrete inputs. -/
theorem gain_clamp_in_baselines_not_in_compose_witness :
    ((1 : ℚ) / 4 ≤ (globalDelTmBaseline 2 2 (constT4 (1 / 2)) (constM 1) CFAPattern.rggb
        none onesScale (1 / 2) (1 / 4) 4 (1 / 1000000)).gain 0) ∧
    ((1 : ℚ) / 4 ≤ gainFieldBaselineGainAnchor (constT4 (1 / 2)) (constM 1)
        CFAPattern.rggb onesScale (1 / 4) 4 (1 / 1000000) 0 0 0) ∧
    composeLinearPrediction 2 2 4 4 (constT4 1) (constT4 10) (constT4 0) 0 0 0 0 = 10 :=
  ⟨(gain_clamp_in_baselines_not_in_compose.1 2 2 (constT4 (1 / 2)) (constM 1)
      CFAPattern.rggb none onesScale (1 / 2) (1 / 4) 4 (1 / 1000000) 0 (by norm_num)).1,
   (gain_clamp_in_baselines_not_in_compose.2.1 (constT4 (1 / 2)) (constM 1)
      CFAPattern.rggb onesScale (1 / 4) 4 (1 / 1000000) 0 0 0 (by norm_num)).1,
   gain_clamp_in_baselines_not_in_compose.2.2 10 (by norm_num)⟩

/-- C6: when the target mosaic differs from the forward-projected
prediction by a uniform constant offset `c`, the Charbonnier anchor loss
is exactly `sqrt(c² + eps²)` (every residual is the constant `-c`, so
the mean of `sqrt((pred - target)² + eps²)` is that single value), and
it strictly increases with `|c|`. -/
theorem anchor_charbonnier_uniform_offset :
    ∀ B h w : ℕ, 0 < B → 0 < h → 0 < w →
      ∀ (pred : ℕ → ℕ → ℕ → ℕ → ℚ) (p : CFAPattern) (scale : ℕ → ℚ) (eps c : ℚ),
        anchorCharbonnierLoss B h w pred
            (fun b y x => quadBayerForward p scale pred b y x + c) p scale eps =
          Real.sqrt ((c : ℝ) ^ 2 + (eps : ℝ) ^ 2) ∧
        (∀ cc : ℚ, |c| < |cc| →
          anchorCharbonnierLoss B h w pred
              (fun b y x => quadBayerForward p scale pred b y x + c) p scale eps <
            anchorCharbonnierLoss B h w pred
              (fun b y x => quadBayerForward p scale pred b y x + cc) p scale eps) := by
  intro B h w hB hh hw pred p scale eps c
  have key : ∀ cst : ℚ, anchorCharbonnierLoss B h w pred
      (fun b y x => quadBayerForward p scale pred b y x + cst) p scale eps =
      Real.sqrt ((cst : ℝ) ^ 2 + (eps : ℝ) ^ 2) := by
    intro cst
    unfold anchorCharbonnierLoss charbonnierLoss
    simp only [sub_add_cancel_left, Rat.cast_neg, neg_sq]
    simp only [Finset.sum_const, Finset.card_range, smul_eq_mul]
    have hB0 : ((B : ℝ)) ≠ 0 := Nat.cast_ne_zero.mpr hB.ne'
    have hh0 : ((h : ℝ)) ≠ 0 := Nat.cast_ne_zero.mpr hh.ne'
    have hw0 : ((w : ℝ)) ≠ 0 := Nat.cast_ne_zero.mpr hw.ne'
    push_cast
    field_simp
    ring
  refine ⟨key c, fun cc hlt => ?_⟩
  rw [key c, key cc]
  apply Real.sqrt_lt_sqrt (by positivity)
  have h1 : |(c : ℝ)| < |(cc : ℝ)| := by
    rw [← Rat.cast_abs, ← Rat.cast_abs]
    exact_mod_cast hlt
  have h2 : (c : ℝ) ^ 2 < (cc : ℝ) ^ 2 := by
    calc (c : ℝ) ^ 2 = |(c : ℝ)| ^ 2 := (sq_abs _).symm
      _ < |(cc : ℝ)| ^ 2 := by
          apply pow_lt_pow_left₀ h1 (abs_nonneg _)
          norm_num
      _ = (cc : ℝ) ^ 2 := sq_abs _
  linarith

/-- Witness for C6 at a concrete `(1, 3, 2, 2)` prediction, offsets
`c = 0` and `cc = 1`, and the default `eps = 1e-3`. -/
theorem anchor_charbonnier_uniform_offset_witness :
    anchorCharbonnierLoss 1 1 1 (constT4 0)
        (fun b y x => quadBayerForward CFAPattern.rggb onesScale (constT4 0) b y x + 0)
        CFAPattern.rggb onesScale (1 / 1000) =
      Real.sqrt (((0 : ℚ) : ℝ) ^ 2 + (((1 : ℚ) / 1000 : ℚ) : ℝ) ^ 2) ∧
    anchorCharbonnierLoss 1 1 1 (constT4 0)
        (fun b y x => quadBayerForward CFAPattern.rggb onesScale (constT4 0) b y x + 0)
        CFAPattern.rggb onesScale (1 / 1000) <
      anchorCharbonnierLoss 1 1 1 (constT4 0)
        (fun b y x => quadBayerForward CFAPattern.rggb onesScale (constT4 0) b y x + 1)
        CFAPattern.rggb onesScale (1 / 1000) :=
  ⟨(anchor_charbonnier_uniform_offset 1 1 1 (by norm_num) (by norm_num) (by norm_num)
      (constT4 0) CFAPattern.rggb onesScale (1 / 1000) 0).1,
   (anchor_charbonnier_uniform_offset 1 1 1 (by norm_num) (by norm_num) (by norm_num)
      (constT4 0) CFAPattern.rggb onesScale (1 / 1000) 0).2 1 (by norm_num)⟩

/-- C8: on any pair with exactly zero MSE — in particular `psnr(x, x)` —
`psnr` returns positive infinity (it is a total function into
`Except String EReal` whose value branch never fails, rather than a
domain error); on nonzero MSE it returns `10·log10(max_val² / MSE)`. -/
theorem psnr_infinite_on_zero_mse :
    (∀ (B C H W : ℕ) (pd td : ℕ → ℕ → ℕ → ℕ → ℚ) (maxVal : ℚ),
      mseT4 B C H W pd td = 0 →
      psnrE (.rank4 B C H W pd) (.rank4 B C H W td) maxVal = .ok ⊤) ∧
    (∀ (B C H W : ℕ) (d : ℕ → ℕ → ℕ → ℕ → ℚ) (maxVal : ℚ),
      psnrE (.rank4 B C H W d) (.rank4 B C H W d) maxVal = .ok ⊤) ∧
    (∀ (B C H W : ℕ) (pd td : ℕ → ℕ → ℕ → ℕ → ℚ) (maxVal : ℚ),
      mseT4 B C H W pd td ≠ 0 →
      psnrE (.rank4 B C H W pd) (.rank4 B C H W td) maxVal =
        .ok ((10 * Real.logb 10 ((maxVal : ℝ) ^ 2 /
          ((mseT4 B C H W pd td : ℚ) : ℝ)) : ℝ) : EReal)) := by
  have h0 : ∀ (B C H W : ℕ) (pd td : ℕ → ℕ → ℕ → ℕ → ℚ) (maxVal : ℚ),
      mseT4 B C H W pd td = 0 →
      psnrE (.rank4 B C H W pd) (.rank4 B C H W td) maxVal = .ok ⊤ := by
    intro B C H W pd td maxVal hmse
    simp [psnrE, ensureImage4d, psnrOfMse, hmse]
  refine ⟨h0, fun B C H W d maxVal => h0 B C H W d d maxVal (by simp [mseT4]), ?_⟩
  intro B C H W pd td maxVal hmse
  simp [psnrE, ensureImage4d, psnrOfMse, hmse]

/-- Witness for C8: `+∞` at a zero-MSE pair of distinct tensor terms,
and the log formula at a concrete nonzero-MSE pair. -/
theorem psnr_infinite_on_zero_mse_witness :
    psnrE (.rank4 1 1 1 1 (constT4 0))
        (.rank4 1 1 1 1 (fun b _ _ _ => if b = 0 then 0 else 5)) 1 = .ok ⊤ ∧
    psnrE (.rank4 1 1 1 1 (constT4 0)) (.rank4 1 1 1 1 (constT4 1)) 1 =
      .ok ((10 * Real.logb 10 (((1 : ℚ) : ℝ) ^ 2 /
        ((mseT4 1 1 1 1 (constT4 0) (constT4 1) : ℚ) : ℝ)) : ℝ) : EReal) :=
  ⟨psnr_infinite_on_zero_mse.1 1 1 1 1 (constT4 0)
     (fun b _ _ _ => if b = 0 then 0 else 5) 1
     (by norm_num [mseT4, constT4, Finset.sum_range_succ]),
   psnr_infinite_on_zero_mse.2.2 1 1 1 1 (constT4 0) (constT4 1) 1
     (by norm_num [mseT4, constT4, Finset.sum_range_succ])⟩

/-- C9: `psnr` and `ssim` accept rank-3 `(C, H, W)` inputs and treat
them exactly as the batched `(1, C, H, W)` call (`_ensure_image_4d`
unsqueezes a leading batch axis), returning identical results; any
input whose rank is neither 3 nor 4 — on either argument — yields the
shape-validation error, for both metrics. -/
theorem psnr_ssim_rank3_batched_equiv :
    (∀ (C H W : ℕ) (dp dt : ℕ → ℕ → ℕ → ℚ) (maxVal : ℚ),
      psnrE (.rank3 C H W dp) (.rank3 C H W dt) maxVal =
        psnrE (.rank4 1 C H W (fun _ => dp)) (.rank4 1 C H W (fun _ => dt)) maxVal) ∧
    (∀ (C H W : ℕ) (dp dt : ℕ → ℕ → ℕ → ℚ) (maxVal sigma : ℚ) (ws : ℕ),
      ssimE (.rank3 C H W dp) (.rank3 C H W dt) maxVal ws sigma =
        ssimE (.rank4 1 C H W (fun _ => dp)) (.rank4 1 C H W (fun _ => dt)) maxVal ws sigma) ∧
    (∀ (n : ℕ) (h3 : n ≠ 3) (h4 : n ≠ 4) (t : TensorInput) (maxVal : ℚ),
      psnrE (.rankOther n h3 h4) t maxVal =
        .error "expected input with shape (B, C, H, W) or (C, H, W)") ∧
    (∀ (B C H W : ℕ) (d : ℕ → ℕ → ℕ → ℕ → ℚ) (n : ℕ) (h3 : n ≠ 3) (h4 : n ≠ 4)
        (maxVal : ℚ),
      psnrE (.rank4 B C H W d) (.rankOther n h3 h4) maxVal =
        .error "expected input with shape (B, C, H, W) or (C, H, W)") ∧
    (∀ (n : ℕ) (h3 : n ≠ 3) (h4 : n ≠ 4) (t : TensorInput) (maxVal sigma : ℚ) (ws : ℕ),
      ssimE (.rankOther n h3 h4) t maxVal ws sigma =
        .error "expected input with shape (B, C, H, W) or (C, H, W)") ∧
    (∀ (B C H W : ℕ) (d : ℕ → ℕ → ℕ → ℕ → ℚ) (n : ℕ) (h3 : n ≠ 3) (h4 : n ≠ 4)
        (maxVal sigma : ℚ) (ws : ℕ),
      ssimE (.rank4 B C H W d) (.rankOther n h3 h4) maxVal ws sigma =
        .error "expected input with shape (B, C, H, W) or (C, H, W)") :=
  ⟨fun _ _ _ _ _ _ => rfl, fun _ _ _ _ _ _ _ _ => rfl, fun _ _ _ _ _ => rfl,
   fun _ _ _ _ _ _ _ _ _ => rfl, fun _ _ _ _ _ _ _ => rfl,
   fun _ _ _ _ _ _ _ _ _ _ _ => rfl⟩

/-- Witness for C9 at concrete inputs (a `(1, 2, 2)` rank-3 pair and a
rank-5 input). -/
theorem psnr_ssim_rank3_batched_equiv_witness :
    (psnrE (.rank3 1 2 2 (fun _ _ _ => 0)) (.rank3 1 2 2 (fun _ _ _ => 1)) 1 =
      psnrE (.rank4 1 1 2 2 (fun _ _ _ _ => 0)) (.rank4 1 1 2 2 (fun _ _ _ _ => 1)) 1) ∧
    psnrE (.rankOther 5 (by norm_num) (by norm_num)) (.rank3 1 2 2 (fun _ _ _ => 0)) 1 =
      .error "expected input with shape (B, C, H, W) or (C, H, W)" :=
  ⟨psnr_ssim_rank3_batched_equiv.1 1 2 2 (fun _ _ _ => 0) (fun _ _ _ => 1) 1,
   psnr_ssim_rank3_batched_equiv.2.2.1 5 (by norm_num) (by norm_num)
     (.rank3 1 2 2 (fun _ _ _ => 0)) 1⟩

/-- C10: `white_balance_consistency` normalizes the caller-supplied
target neutral by its own green component (`target / target[:, 1:2]`),
so both the per-channel deviation and the within-tolerance boolean are
invariant under multiplying the target by any positive scalar. -/
theorem white_balance_scale_invariant :
    ∀ (B H W : ℕ) (mosaic : ℕ → ℕ → ℕ → ℚ) (p : CFAPattern) (tol : ℚ)
      (t : ℕ → ℚ) (c : ℚ), 0 < c →
      whiteBalanceDeviation H W mosaic (fun i => c * t i) p =
        whiteBalanceDeviation H W mosaic t p ∧
      (whiteBalanceWithin B H W mosaic (fun i => c * t i) p tol ↔
        whiteBalanceWithin B H W mosaic t p tol) := by
  intro B H W mosaic p tol t c hc
  have hdev : whiteBalanceDeviation H W mosaic (fun i => c * t i) p =
      whiteBalanceDeviation H W mosaic t p := by
    funext b i
    unfold whiteBalanceDeviation
    rw [mul_div_mul_left _ _ (ne_of_gt hc)]
  exact ⟨hdev, by unfold whiteBalanceWithin; rw [hdev]⟩

/-- Witness for C10 at a concrete RGGB mosaic, target `(2, 1, 1)` and
scalar `c = 3`. -/
theorem white_balance_scale_invariant_witness :
    whiteBalanceDeviation 2 2 (constM 1)
        (fun i => 3 * (if i = 0 then 2 else 1)) CFAPattern.rggb =
      whiteBalanceDeviation 2 2 (constM 1) (fun i => if i = 0 then 2 else 1)
        CFAPattern.rggb :=
  (white_balance_scale_invariant 1 2 2 (constM 1) CFAPattern.rggb (1 / 20)
    (fun i => if i = 0 then 2 else 1) 3 (by norm_num)).1

/-- The MSE of a mosaic pair is non-negative. -/
theorem mseM_nonneg (B H W : ℕ) (p t : ℕ → ℕ → ℕ → ℚ) : 0 ≤ mseM B H W p t := by
  unfold mseM
  apply div_nonneg _ (by positivity)
  exact Finset.sum_nonneg fun b _ => Finset.sum_nonneg fun y _ =>
    Finset.sum_nonneg fun x _ => sq_nonneg _

/-- On non-empty shapes, the MSE vanishes exactly when the two mosaics
agree at every valid index. -/
theorem mseM_eq_zero_iff {B H W : ℕ} (hB : 0 < B) (hH : 0 < H) (hW : 0 < W)
    (p t : ℕ → ℕ → ℕ → ℚ) : mseM B H W p t = 0 ↔ mosaicEqOn B H W p t := by
  unfold mseM mosaicEqOn
  have hn : ((B * H * W : ℕ) : ℚ) ≠ 0 := by
    have h0 : 0 < B * H * W := by positivity
    exact_mod_cast h0.ne'
  rw [div_eq_zero_iff, or_iff_left hn]
  rw [Finset.sum_eq_zero_iff_of_nonneg
    (fun b _ => Finset.sum_nonneg fun y _ => Finset.sum_nonneg fun x _ => sq_nonneg _)]
  constructor
  · intro h b hb y hy x hx
    have h1 := h b (Finset.mem_range.mpr hb)
    rw [Finset.sum_eq_zero_iff_of_nonneg
      (fun y _ => Finset.sum_nonneg fun x _ => sq_nonneg _)] at h1
    have h2 := h1 y (Finset.mem_range.mpr hy)
    rw [Finset.sum_eq_zero_iff_of_nonneg (fun x _ => sq_nonneg _)] at h2
    have h3 := h2 x (Finset.mem_range.mpr hx)
    have h4 : p b y x - t b y x = 0 := sq_eq_zero_iff.mp h3
    linarith
  · intro h b hb
    apply Finset.sum_eq_zero
    intro y hy
    apply Finset.sum_eq_zero
    intro x hx
    rw [h b (Finset.mem_range.mp hb) y (Finset.mem_range.mp hy) x (Finset.mem_range.mp hx)]
    ring

/-- Rolling by `(0, 0)` is the identity on the valid index range. -/
theorem rollM_zero_on {B H W : ℕ} (m : ℕ → ℕ → ℕ → ℚ) :
    mosaicEqOn B H W (rollM H W m 0 0) m := by
  intro b hb y hy x hx
  unfold rollM
  congr 1
  · have h1 : ((y : ℤ) - 0) % (H : ℤ) = (y : ℤ) := by
      rw [sub_zero]
      exact Int.emod_eq_of_lt (by positivity) (by exact_mod_cast hy)
    rw [h1]
    exact Int.toNat_natCast y
  · have h1 : ((x : ℤ) - 0) % (W : ℤ) = (x : ℤ) := by
      rw [sub_zero]
      exact Int.emod_eq_of_lt (by positivity) (by exact_mod_cast hx)
    rw [h1]
    exact Int.toNat_natCast x

/-- Two circular rolls compose by adding the shifts. -/
theorem rollM_rollM {H W : ℕ} (hH : 0 < H) (hW : 0 < W) (m : ℕ → ℕ → ℕ → ℚ)
    (a b c d : ℤ) : rollM H W (rollM H W m a b) c d = rollM H W m (a + c) (b + d) := by
  funext bb y x
  unfold rollM
  have key : ∀ (n : ℕ) (z w : ℤ), 0 < n →
      (((((z % (n : ℤ)).toNat : ℤ)) - w) % (n : ℤ)).toNat =
        (((z - w) % (n : ℤ)).toNat) := by
    intro n z w hn
    have hn0 : ((n : ℤ)) ≠ 0 := by exact_mod_cast hn.ne'
    rw [Int.toNat_of_nonneg (Int.emod_nonneg z hn0)]
    congr 1
    conv_rhs => rw [Int.sub_emod]
    conv_lhs => rw [Int.sub_emod, Int.emod_emod_of_dvd z dvd_rfl]
  rw [key H ((y : ℤ) - c) a hH, key W ((x : ℤ) - d) b hW]
  congr 2
  · congr 1
    ring
  · congr 1
    ring

/-- The shift offsets are exactly the integers in `[-m, m]`. -/
theorem mem_shiftOffsets {m : ℕ} {a : ℤ} :
    a ∈ shiftOffsets m ↔ -(m : ℤ) ≤ a ∧ a ≤ m := by
  unfold shiftOffsets
  rw [List.mem_map]
  constructor
  · rintro ⟨i, hi, rfl⟩
    rw [List.mem_range] at hi
    omega
  · intro h
    refine ⟨(a + m).toNat, ?_, ?_⟩
    · rw [List.mem_range]
      omega
    · omega

/-- The shift grid is exactly `[-m, m] × [-m, m]`. -/
theorem mem_shiftGrid {m : ℕ} {s : ℤ × ℤ} :
    s ∈ shiftGrid m ↔ (-(m : ℤ) ≤ s.1 ∧ s.1 ≤ m) ∧ (-(m : ℤ) ≤ s.2 ∧ s.2 ≤ m) := by
  rcases s with ⟨dy, dx⟩
  simp only [shiftGrid, List.mem_flatten, List.mem_map]
  constructor
  · rintro ⟨l, ⟨dy0, hdy0, rfl⟩, hmem⟩
    rcases List.mem_map.mp hmem with ⟨dx0, hdx0, heq⟩
    cases heq
    exact ⟨mem_shiftOffsets.mp hdy0, mem_shiftOffsets.mp hdx0⟩
  · rintro ⟨h1, h2⟩
    exact ⟨_, ⟨dy, mem_shiftOffsets.mpr h1, rfl⟩,
      List.mem_map.mpr ⟨dx, mem_shiftOffsets.mpr h2, rfl⟩⟩

/-- Once the scan holds a zero-MSE incumbent, it never changes again
(MSEs are non-negative, and the source updates only on strict
improvement). -/
theorem foldl_misalignStep_keep (score : ℤ × ℤ → ℚ) (hnn : ∀ s, 0 ≤ score s)
    (s0 : ℤ × ℤ) : ∀ l : List (ℤ × ℤ),
    l.foldl (misalignStep score) (some (s0, 0)) = some (s0, 0) := by
  intro l
  induction l with
  | nil => rfl
  | cons a t ih =>
      have hstep : misalignStep score (some (s0, 0)) a = some (s0, 0) := by
        simp only [misalignStep]
        rw [if_neg (not_lt.mpr (hnn a))]
      rw [List.foldl_cons, hstep, ih]

/-- If exactly one shift in the scanned list has zero MSE and every
other scanned shift has strictly positive MSE, the first-strict-best
scan returns that shift with score 0 — regardless of a `none` or
positive-valued incumbent. -/
theorem foldl_misalignStep_unique (score : ℤ × ℤ → ℚ) (hnn : ∀ s, 0 ≤ score s)
    (s0 : ℤ × ℤ) (hs0 : score s0 = 0) :
    ∀ (l : List (ℤ × ℤ)) (acc : Option ((ℤ × ℤ) × ℚ)),
      s0 ∈ l → (∀ s ∈ l, s ≠ s0 → 0 < score s) →
      (acc = none ∨ ∃ bs bv, acc = some (bs, bv) ∧ 0 < bv) →
      l.foldl (misalignStep score) acc = some (s0, 0) := by
  intro l
  induction l with
  | nil =>
      intro acc hmem _ _
      exact absurd hmem (List.not_mem_nil s0)
  | cons a t ih =>
      intro acc hmem hpos hacc
      rcases eq_or_ne a s0 with rfl | hne
      · have hstep : misalignStep score acc a = some (a, 0) := by
          rcases hacc with rfl | ⟨bs, bv, rfl, hbv⟩
          · simp only [misalignStep]
            rw [hs0]
          · simp only [misalignStep]
            rw [hs0, if_pos hbv]
        rw [List.foldl_cons, hstep]
        exact foldl_misalignStep_keep score hnn a t
      · have hs0t : s0 ∈ t := by
          rcases List.mem_cons.mp hmem with h | h
          · exact absurd h.symm hne
          · exact h
        have hposa : 0 < score a := hpos a (List.mem_cons_self a t) hne
        have hacc2 : misalignStep score acc a = none ∨
            ∃ bs bv, misalignStep score acc a = some (bs, bv) ∧ 0 < bv := by
          rcases hacc with rfl | ⟨bs, bv, rfl, hbv⟩
          · exact Or.inr ⟨a, score a, rfl, hposa⟩
          · simp only [misalignStep]
            by_cases hlt : score a < bv
            · rw [if_pos hlt]
              exact Or.inr ⟨a, score a, rfl, hposa⟩
            · rw [if_neg hlt]
              exact Or.inr ⟨bs, bv, rfl, hbv⟩
        rw [List.foldl_cons]
        exact ih (misalignStep score acc a) hs0t
          (fun s hs hsne => hpos s (List.mem_cons_of_mem a hs) hsne) hacc2

/-- C5: if the simulated mosaic is the circular shift of the anchor by a
nonzero in-range offset `(sy, sx)`, and no other in-range shift maps it
back onto the anchor, then `detect_misalignment` reports
`best_shift = (-sy, -sx)`, `is_aligned = False`, a best score of zero
MSE (infinite PSNR), a strictly positive reference MSE, and a best PSNR
strictly above the reference PSNR; and, for arbitrary inputs,
`is_aligned = True` only if the best shift is `(0, 0)` and the
unshifted score meets the configured threshold. -/
theorem detect_misalignment_flags_circular_shift :
    (∀ (B H W maxShift : ℕ) (anchor : ℕ → ℕ → ℕ → ℚ) (tau : ℚ) (sy sx : ℤ),
      0 < B → 0 < H → 0 < W →
      (sy, sx) ≠ ((0 : ℤ), (0 : ℤ)) →
      sy.natAbs ≤ maxShift → sx.natAbs ≤ maxShift →
      (∀ s ∈ shiftGrid maxShift,
        mosaicEqOn B H W (rollM H W (rollM H W anchor sy sx) s.1 s.2) anchor →
        s = (-sy, -sx)) →
      ((detectMisalignment B H W anchor (rollM H W anchor sy sx) maxShift tau).bestShift
          = (-sy, -sx) ∧
        (detectMisalignment B H W anchor (rollM H W anchor sy sx) maxShift tau).isAligned
          = false ∧
        (detectMisalignment B H W anchor (rollM H W anchor sy sx) maxShift tau).bestMse = 0 ∧
        0 < (detectMisalignment B H W anchor
              (rollM H W anchor sy sx) maxShift tau).referenceMse ∧
        psnrOfMse 1 ((detectMisalignment B H W anchor
              (rollM H W anchor sy sx) maxShift tau).referenceMse) <
          psnrOfMse 1 ((detectMisalignment B H W anchor
              (rollM H W anchor sy sx) maxShift tau).bestMse))) ∧
    (∀ (B H W maxShift : ℕ) (anchor simulated : ℕ → ℕ → ℕ → ℚ) (tau : ℚ),
      (detectMisalignment B H W anchor simulated maxShift tau).isAligned = true →
      (detectMisalignment B H W anchor simulated maxShift tau).bestShift
          = ((0 : ℤ), (0 : ℤ)) ∧
      (detectMisalignment B H W anchor simulated maxShift tau).referenceMse ≤ tau) := by
  constructor
  · intro B H W maxShift anchor tau sy sx hB hH hW hs hsy hsx huniq
    have hscore0 : mseM B H W
        (rollM H W (rollM H W anchor sy sx) (Prod.fst (-sy, -sx)) (Prod.snd (-sy, -sx)))
        anchor = 0 := by
      apply (mseM_eq_zero_iff hB hH hW _ _).mpr
      have hcomp := rollM_rollM hH hW anchor sy sx (-sy) (-sx)
      simp only [add_neg_cancel] at hcomp
      intro b hb y hy x hx
      have h2 := congrFun (congrFun (congrFun hcomp b) y) x
      dsimp only at h2 ⊢
      rw [h2]
      exact rollM_zero_on anchor b hb y hy x hx
    have hnn : ∀ s : ℤ × ℤ,
        0 ≤ mseM B H W (rollM H W (rollM H W anchor sy sx) s.1 s.2) anchor :=
      fun s => mseM_nonneg B H W _ _
    have hmem0 : ((-sy, -sx) : ℤ × ℤ) ∈ shiftGrid maxShift := by
      apply mem_shiftGrid.mpr
      dsimp only
      omega
    have hmem00 : (((0 : ℤ), (0 : ℤ)) : ℤ × ℤ) ∈ shiftGrid maxShift := by
      apply mem_shiftGrid.mpr
      dsimp only
      omega
    have hpos : ∀ s ∈ shiftGrid maxShift, s ≠ (-sy, -sx) →
        0 < mseM B H W (rollM H W (rollM H W anchor sy sx) s.1 s.2) anchor := by
      intro s hsmem hsne
      rcases lt_or_eq_of_le (hnn s) with h | h
      · exact h
      · exact absurd (huniq s hsmem ((mseM_eq_zero_iff hB hH hW _ _).mp h.symm)) hsne
    have hfold : (shiftGrid maxShift).foldl
        (misalignStep (fun s =>
          mseM B H W (rollM H W (rollM H W anchor sy sx) s.1 s.2) anchor)) none =
        some ((-sy, -sx), 0) :=
      foldl_misalignStep_unique _ hnn (-sy, -sx) hscore0 (shiftGrid maxShift) none
        hmem0 hpos (Or.inl rfl)
    have hdet : detectMisalignment B H W anchor (rollM H W anchor sy sx) maxShift tau =
        ⟨(-sy, -sx), 0, mseM B H W (rollM H W anchor sy sx) anchor,
          decide ((-sy, -sx) = ((0 : ℤ), (0 : ℤ))) &&
            decide (mseM B H W (rollM H W anchor sy sx) anchor ≤ tau)⟩ := by
      simp only [detectMisalignment]
      rw [hfold]
      rfl
    have hrefne : mseM B H W (rollM H W anchor sy sx) anchor ≠ 0 := by
      intro h0
      have heqon := (mseM_eq_zero_iff hB hH hW _ _).mp h0
      have h00 : (((0 : ℤ), (0 : ℤ)) : ℤ × ℤ) = (-sy, -sx) := by
        apply huniq (0, 0) hmem00
        intro b hb y hy x hx
        have h1 := rollM_zero_on (B := B) (rollM H W anchor sy sx) b hb y hy x hx
        dsimp only at h1 ⊢
        rw [h1]
        exact heqon b hb y hy x hx
      have h1 : -sy = 0 ∧ -sx = 0 := by
        rw [Prod.mk.injEq] at h00
        exact ⟨h00.1.symm, h00.2.symm⟩
      apply hs
      rw [Prod.mk.injEq]
      omega
    have hshiftne : ((-sy, -sx) : ℤ × ℤ) ≠ ((0 : ℤ), (0 : ℤ)) := by
      intro h
      rw [Prod.mk.injEq] at h
      apply hs
      rw [Prod.mk.injEq]
      omega
    refine ⟨by rw [hdet], ?_, by rw [hdet], ?_, ?_⟩
    · rw [hdet]
      dsimp only
      rw [decide_eq_false hshiftne, Bool.false_and]
    · rw [hdet]
      exact lt_of_le_of_ne (mseM_nonneg B H W _ _) (Ne.symm hrefne)
    · rw [hdet]
      simp only [psnrOfMse, if_pos rfl, if_neg hrefne]
      exact EReal.coe_lt_top _
  · intro B H W maxShift anchor simulated tau hal
    simp only [detectMisalignment] at hal
    rw [Bool.and_eq_true] at hal
    refine ⟨?_, of_decide_eq_true hal.2⟩
    simp only [detectMisalignment]
    exact of_decide_eq_true hal.1

/-- Witness for C5: a concrete 4×4 anchor, shift `(1, 0)`, search radius
2. -/
theorem detect_misalignment_flags_circular_shift_witness :
    (detectMisalignment 1 4 4 c5Anchor (rollM 4 4 c5Anchor 1 0) 2 (1 / 1000)).bestShift
        = (-1, 0) ∧
    (detectMisalignment 1 4 4 c5Anchor (rollM 4 4 c5Anchor 1 0) 2 (1 / 1000)).isAligned
        = false ∧
    (detectMisalignment 1 4 4 c5Anchor (rollM 4 4 c5Anchor 1 0) 2 (1 / 1000)).bestMse = 0 :=
  ⟨(detect_misalignment_flags_circular_shift.1 1 4 4 2 c5Anchor (1 / 1000) 1 0
      (by norm_num) (by norm_num) (by norm_num) (by decide) (by decide) (by decide)
      (by decide)).1,
   (detect_misalignment_flags_circular_shift.1 1 4 4 2 c5Anchor (1 / 1000) 1 0
      (by norm_num) (by norm_num) (by norm_num) (by decide) (by decide) (by decide)
      (by decide)).2.1,
   (detect_misalignment_flags_circular_shift.1 1 4 4 2 c5Anchor (1 / 1000) 1 0
      (by norm_num) (by norm_num) (by norm_num) (by decide) (by decide) (by decide)
      (by decide)).2.2.1⟩

end ProjectTeal
